import Mathlib

/-!
Shallow embedding of the core logic of the QR scavenger-hunt backend:
the drawing engine (runDrawing, getEligibleClassesForDrawing in
src/controllers/drawingController.js), the scan recording path
(recordScan in the same file) and the progress query (getClassProgress
in the class controller).

Modelling conventions:
  - Mongo ObjectIds are modelled as natural numbers.
  - Timestamps (JS Date values) are modelled as natural numbers of
    milliseconds since the epoch.
  - JS numbers that carry fractional weighting factors are modelled as
    rationals; Math.round is the round-half-up function on rationals.
  - The persistence store is modelled as an in-memory record of the three
    collections the core logic touches (stations, classes, scans); a
    Mongoose find with an equality filter becomes a List.filter, findById
    and findOne become List.find?, save becomes an id-keyed replacement.
  - Display-only attributes that the core logic never branches on
    (images, fun facts, device info, class codes and so on) are omitted
    from the record types.
  - The Fisher-Yates shuffle driven by Math.random is modelled as an
    explicit function parameter; theorems that depend on it assume only
    that it permutes its input.
-/

deriving instance DecidableEq for Except

namespace RRLC

/-- A station document: id plus the fields the core logic reads. -/
structure Station where
  sid : Nat
  name : String
  isActive : Bool
deriving DecidableEq

/-- The teacher subdocument embedded in a class document. -/
structure TeacherInfo where
  tid : Nat
  name : String
  email : String
deriving DecidableEq

/-- A class document with the fields read or written by the core logic. -/
structure ClassDoc where
  cid : Nat
  name : String
  school : String
  grade : String
  studentCount : Nat
  teacher : TeacherInfo
  isActive : Bool
  stationsScanned : List Nat
  isCompleted : Bool
  lastScanAt : Option Nat
  completedAt : Option Nat
  registeredAt : Nat
deriving DecidableEq

/-- A scan document: one (class, station) visit event. -/
structure Scan where
  classId : Nat
  stationId : Nat
  scannedAt : Nat
deriving DecidableEq

/-- The weightingFactors subdocument of a drawing. -/
structure WeightingFactors where
  completionTime : ℚ
  stationsFound : ℚ
deriving DecidableEq

/-- Drawing status enumeration: pending or completed. -/
inductive DrawingStatus where
  | pending
  | completed
deriving DecidableEq

/-- A winner entry stored on a drawing document. -/
structure Winner where
  winClass : Nat
  prize : String
  notified : Bool
deriving DecidableEq

/-- A drawing document. -/
structure Drawing where
  did : Nat
  name : String
  eligibleClasses : List Nat
  winners : List Winner
  weightingFactors : WeightingFactors
  status : DrawingStatus
deriving DecidableEq

/-- The persistence store: the three collections the core logic touches. -/
structure DB where
  stations : List Station
  classes : List ClassDoc
  scans : List Scan
deriving DecidableEq

/-- Number of active stations: Station.find with isActive true, length
(equivalently Station.countDocuments with isActive true). -/
def activeStationCount (db : DB) : Nat :=
  (db.stations.filter (·.isActive)).length

/-- The scan history of one class: Scan.find filtered by the class id. -/
def scansForClass (scans : List Scan) (cid : Nat) : List Scan :=
  scans.filter (fun s => s.classId == cid)

/-- Number of distinct station ids in a scan list: the size of the Set
built from the station ids of the scans. -/
def stationsFoundCount (scans : List Scan) : Nat :=
  ((scans.map (·.stationId)).dedup).length

/-- Earliest scan timestamp in a list of scans (the source sorts the
scans by scannedAt ascending and reads the first element). The value is
only used on nonempty lists; the nil case returns 0. -/
def scanStartTime (scans : List Scan) : Nat :=
  match scans with
  | [] => 0
  | s :: rest => (rest.map (·.scannedAt)).foldl min s.scannedAt

/-- Latest scannedAt among the scans of one station (the source builds
lastScanByStation by overwriting per station while walking the scans in
ascending scannedAt order, so the retained value per station is the
maximum scannedAt of that station). -/
def lastScanTimeForStation (scans : List Scan) (sid : Nat) : Nat :=
  ((scans.filter (fun s => s.stationId == sid)).map (·.scannedAt)).foldl max 0

/-- The end time: maximum over stations of the per-station latest
scannedAt. -/
def scanEndTime (scans : List Scan) : Nat :=
  (((scans.map (·.stationId)).dedup).map (lastScanTimeForStation scans)).foldl max 0

/-- Completion time in minutes: (endTime - startTime) / (1000 * 60). -/
def completionMinutes (scans : List Scan) : ℚ :=
  ((scanEndTime scans : ℚ) - (scanStartTime scans : ℚ)) / (1000 * 60)

/-- JS Math.round: round half away from zero for nonnegative inputs;
Math.round(x) is the floor of x + 1/2. -/
def jsRound (q : ℚ) : ℤ :=
  (q + 1 / 2).floor

/-- The ticket weight computed per eligible class inside runDrawing:
weight starts at 1, adds stationsFoundCount times the stationsFound
factor, then, when the class found exactly totalStations stations and
has at least one scan and the completion time is positive and the
completionTime factor is truthy (nonzero), adds the completionTime
factor as a flat bonus; finally Math.max(1, Math.round(weight)). -/
def classWeight (wf : WeightingFactors) (total : Nat) (scans : List Scan) : Nat :=
  let found := stationsFoundCount scans
  let base : ℚ := 1 + (found : ℚ) * wf.stationsFound
  let w : ℚ :=
    if found = total ∧ scans ≠ [] then
      if 0 < completionMinutes scans ∧ wf.completionTime ≠ 0 then base + wf.completionTime
      else base
    else base
  (max 1 (jsRound w)).toNat

/-- One ticket in the entry pool of runDrawing. -/
structure Entry where
  classId : Nat
  className : String
  teacherEmail : String
  teacherName : String
deriving DecidableEq

/-- The entry built for a class. -/
def mkEntry (c : ClassDoc) : Entry :=
  ⟨c.cid, c.name, c.teacher.email, c.teacher.name⟩

/-- The ids pushed onto drawing.eligibleClasses by the per-class loop of
runDrawing: a class is skipped when its distinct-station count is below
the active-station total, otherwise its id is recorded. -/
def eligibleIds (total : Nat) (scansAll : List Scan) : List ClassDoc → List Nat
  | [] => []
  | c :: rest =>
    if stationsFoundCount (scansForClass scansAll c.cid) < total then
      eligibleIds total scansAll rest
    else
      c.cid :: eligibleIds total scansAll rest

/-- The flat ticket pool built by the same loop: every eligible class
contributes classWeight copies of its entry. -/
def entryPool (wf : WeightingFactors) (total : Nat) (scansAll : List Scan) :
    List ClassDoc → List Entry
  | [] => []
  | c :: rest =>
    let scans := scansForClass scansAll c.cid
    if stationsFoundCount scans < total then
      entryPool wf total scansAll rest
    else
      List.replicate (classWeight wf total scans) (mkEntry c) ++ entryPool wf total scansAll rest

/-- The winner-selection loop: walk the shuffled pool, pick the class id
of an entry when fewer than n winners are chosen so far and the class id
was not picked yet, and stop as soon as n winners are chosen. -/
def pickWinners (n : Nat) : List Entry → List Nat → List Nat
  | [], acc => acc
  | e :: rest, acc =>
    let acc2 := if acc.length < n ∧ e.classId ∉ acc then acc ++ [e.classId] else acc
    if n ≤ acc2.length then acc2 else pickWinners n rest acc2

/-- Errors signalled by runDrawing. -/
inductive RunError where
  | invalidWinners
  | notFound
  | alreadyCompleted
  | noActiveStations
  | noEligible
deriving DecidableEq

/-- HTTP status attached to each runDrawing error. -/
def runErrStatus : RunError → Nat
  | .invalidWinners => 400
  | .notFound => 404
  | .alreadyCompleted => 409
  | .noActiveStations => 400
  | .noEligible => 400

/-- Input validation of numberOfWinners: the source rejects a missing or
falsy value and any value at most 0. -/
def validWinnerCount : Option Int → Bool
  | none => false
  | some n => 0 < n

/-- prizeDescription or the default prize string (JS falsy-or). -/
def prizeOrDefault : Option String → String
  | none => "Scavenger Hunt Prize"
  | some s => if s = "" then "Scavenger Hunt Prize" else s

/-- runDrawing: validates numberOfWinners, loads the drawing, rejects a
completed drawing, requires at least one active station, builds the
eligible list and the weighted ticket pool over the active classes,
rejects an empty pool, shuffles the pool, picks up to numberOfWinners
distinct class ids and saves the updated drawing. The first component is
the response, the second the persisted state of the drawing document
after the call (unchanged on every error path, since the source only
saves on success). -/
def runDrawing (numberOfWinners : Option Int) (prizeDescription : Option String)
    (drawing? : Option Drawing) (db : DB) (shuffle : List Entry → List Entry) :
    Except RunError Drawing × Option Drawing :=
  if validWinnerCount numberOfWinners = false then (.error .invalidWinners, drawing?)
  else
    match drawing? with
    | none => (.error .notFound, none)
    | some drawing =>
      if drawing.status = .completed then (.error .alreadyCompleted, some drawing)
      else
        let total := activeStationCount db
        if total = 0 then (.error .noActiveStations, some drawing)
        else
          let activeClasses := db.classes.filter (·.isActive)
          let elig := drawing.eligibleClasses ++ eligibleIds total db.scans activeClasses
          let entries := entryPool drawing.weightingFactors total db.scans activeClasses
          if entries = [] then (.error .noEligible, some drawing)
          else
            let n := ((numberOfWinners.getD 0)).toNat
            let picked := pickWinners n (shuffle entries) []
            let ws := picked.map (fun w => Winner.mk w (prizeOrDefault prizeDescription) false)
            let result : Drawing :=
              { drawing with
                eligibleClasses := elig
                winners := ws
                status := .completed }
            (.ok result, some result)

/-- One row of the eligible-classes query response. -/
structure EligRow where
  cid : Nat
  name : String
  school : String
  grade : String
  teacherName : String
  teacherEmail : String
  studentCount : Nat
  stationsFound : Nat
  totalStations : Nat
  isEligible : Bool
deriving DecidableEq

/-- getEligibleClassesForDrawing: errors when there is no active
station, otherwise returns a row for every active class whose
distinct-station count reaches the active-station total. -/
def getEligibleClassesForDrawing (db : DB) : Except RunError (List EligRow) :=
  let total := activeStationCount db
  if total = 0 then .error .noActiveStations
  else
    .ok ((db.classes.filter (·.isActive)).filterMap (fun c =>
      if total ≤ stationsFoundCount (scansForClass db.scans c.cid) then
        some ⟨c.cid, c.name, c.school, c.grade, c.teacher.name, c.teacher.email,
              c.studentCount, stationsFoundCount (scansForClass db.scans c.cid), total, true⟩
      else none))

/-! Scan recording (recordScan). -/

/-- Errors signalled by recordScan before any state change. -/
inductive ScanError where
  | missingFields
  | stationNotFound
  | stationInactive
  | classNotFound
  | classInactive
deriving DecidableEq

/-- HTTP status attached to each recordScan error. -/
def scanErrStatus : ScanError → Nat
  | .missingFields => 400
  | .stationNotFound => 404
  | .stationInactive => 400
  | .classNotFound => 404
  | .classInactive => 400

/-- The success response of recordScan: HTTP status, the existing flag
and the id of the station whose display data is returned. -/
structure ScanResponse where
  status : Nat
  existing : Bool
  stationId : Nat
deriving DecidableEq

/-- Replace the class document with the given cid by the new version
(mongoose save on a loaded document). -/
def updateClass (db : DB) (c : ClassDoc) : DB :=
  { db with classes := db.classes.map (fun x => if x.cid = c.cid then c else x) }

/-- The completion check run after a new scan while the class is not yet
completed: complete when the cached stationsScanned length reaches the
active-station total and that total is positive, or (dead in practice)
when the total is zero and the cached list is empty. -/
def completionUpdate (totalActive : Nat) (now : Nat) (c : ClassDoc) : ClassDoc :=
  if c.isCompleted then c
  else if totalActive ≤ c.stationsScanned.length ∧ 0 < totalActive then
    { c with isCompleted := true, completedAt := some now }
  else if totalActive = 0 ∧ c.stationsScanned.length = 0 then
    { c with isCompleted := true, completedAt := some now }
  else c

/-- The class-document update performed on a repeat scan: only
lastScanAt is set to the current time. -/
def repeatScanClassUpdate (now : Nat) (c : ClassDoc) : ClassDoc :=
  { c with lastScanAt := some now }

/-- The class-document update performed after a new scan is created: add
the station to stationsScanned when absent, set lastScanAt, then run the
completion check against the active-station total. -/
def newScanClassUpdate (sid now totalActive : Nat) (c : ClassDoc) : ClassDoc :=
  let c1 :=
    if sid ∈ c.stationsScanned then c
    else { c with stationsScanned := c.stationsScanned ++ [sid] }
  let c2 := { c1 with lastScanAt := some now }
  completionUpdate totalActive now c2

/-- recordScan: validates the two ids, loads the station (by id, the QR
payload) and the class, rejects inactive ones, then either detects an
existing scan of the same (class, station) pair - updating only
lastScanAt and answering 200 with existing true - or creates the scan,
applies newScanClassUpdate to the class and answers 201 with existing
false. The second component is the store after the call. The repeat
branch skips the save when lastScanAt is already the current time, as
the source does. -/
def recordScan (classId? stationQR? : Option Nat) (now : Nat) (db : DB) :
    Except ScanError ScanResponse × DB :=
  match classId?, stationQR? with
  | some cid, some qr =>
    (match db.stations.find? (fun s => s.sid == qr) with
     | none => (.error .stationNotFound, db)
     | some station =>
       if station.isActive then
         match db.classes.find? (fun x => x.cid == cid) with
         | none => (.error .classNotFound, db)
         | some classObj =>
           if classObj.isActive then
             match db.scans.find? (fun s => s.classId == cid && s.stationId == station.sid) with
             | some _ =>
               let db1 :=
                 if classObj.lastScanAt = some now then db
                 else updateClass db (repeatScanClassUpdate now classObj)
               (.ok ⟨200, true, station.sid⟩, db1)
             | none =>
               let dbS := { db with scans := db.scans ++ [⟨cid, station.sid, now⟩] }
               (.ok ⟨201, false, station.sid⟩,
                updateClass dbS
                  (newScanClassUpdate station.sid now (activeStationCount dbS) classObj))
           else (.error .classInactive, db)
       else (.error .stationInactive, db))
  | _, _ => (.error .missingFields, db)

/-- The uniqueness invariant enforced by the compound index of the Scan
schema: at most one scan per (class, station) pair. -/
@[reducible] def ScanPairsUnique (scans : List Scan) : Prop :=
  (scans.map (fun s => (s.classId, s.stationId))).Nodup

/-! Progress query (getClassProgress in the class controller). -/

/-- Errors of the progress query. -/
inductive ProgressError where
  | notFound
  | forbidden
deriving DecidableEq

/-- The data object returned by the progress query. -/
structure ProgressData where
  completedCount : Nat
  totalStations : Nat
  progressPercentage : Int
  isCompleted : Bool
  completedAt : Option Nat
  lastScanAt : Option Nat
  completionTime : Option ℚ
deriving DecidableEq

/-- getClassProgress: loads the class, checks ownership, counts the
active stations and the scan documents of the class (falling back to the
cached stationsScanned length when the count is zero), and reports the
cached completion flag together with a completionTime computed as
(completedAt - registeredAt) in minutes when the class is completed and
completedAt is present. -/
def getClassProgress (userId : Nat) (isAdmin : Bool) (classId : Nat) (db : DB) :
    Except ProgressError ProgressData :=
  match db.classes.find? (fun x => x.cid == classId) with
  | none => .error .notFound
  | some classObj =>
    if classObj.teacher.tid ≠ userId ∧ isAdmin = false then .error .forbidden
    else
      let totalActiveStations := activeStationCount db
      let scanCount := (db.scans.filter (fun s => s.classId == classId)).length
      let completedCount := if 0 < scanCount then scanCount else classObj.stationsScanned.length
      let progressPercentage : Int :=
        if 0 < totalActiveStations then
          jsRound ((completedCount : ℚ) / (totalActiveStations : ℚ) * 100)
        else 0
      let completionTime : Option ℚ :=
        match classObj.isCompleted, classObj.completedAt with
        | true, some t => some (((t : ℚ) - (classObj.registeredAt : ℚ)) / (1000 * 60))
        | _, _ => none
      .ok ⟨completedCount, totalActiveStations, progressPercentage, classObj.isCompleted,
           classObj.completedAt, classObj.lastScanAt, completionTime⟩

/-! Claim-side weight formulas, worded as the C2 claim states them. -/

/-- The ticket weight exactly as claim C2 words it: 1, plus
completedCount times the stationsFound factor, plus the completionTime
factor whenever the class has at least one scan, its completion time in
minutes is positive and the factor is truthy - with no requirement that
the class found exactly totalStations stations. -/
def claimTicketWeight (wf : WeightingFactors) (scans : List Scan) : Nat :=
  let w : ℚ := 1 + (stationsFoundCount scans : ℚ) * wf.stationsFound +
    (if scans ≠ [] ∧ 0 < completionMinutes scans ∧ wf.completionTime ≠ 0 then
      wf.completionTime else 0)
  (max 1 (jsRound w)).toNat

/-- The amended ticket weight: as claim C2 but the completion-time bonus
additionally requires the distinct-station count to equal the number of
active stations, as the source does. -/
def claimTicketWeightAmended (wf : WeightingFactors) (total : Nat) (scans : List Scan) : Nat :=
  let w : ℚ := 1 + (stationsFoundCount scans : ℚ) * wf.stationsFound +
    (if stationsFoundCount scans = total ∧ scans ≠ [] ∧ 0 < completionMinutes scans ∧
        wf.completionTime ≠ 0 then
      wf.completionTime else 0)
  (max 1 (jsRound w)).toNat

/-! Helper lemmas about the winner-selection loop. -/

theorem pickWinners_nil (n : Nat) (acc : List Nat) : pickWinners n [] acc = acc := rfl

theorem pickWinners_cons (n : Nat) (e : Entry) (rest : List Entry) (acc : List Nat) :
    pickWinners n (e :: rest) acc =
      (if n ≤ (if acc.length < n ∧ e.classId ∉ acc then acc ++ [e.classId] else acc).length then
        (if acc.length < n ∧ e.classId ∉ acc then acc ++ [e.classId] else acc)
      else pickWinners n rest (if acc.length < n ∧ e.classId ∉ acc then acc ++ [e.classId] else acc)) :=
  rfl

theorem pickWinners_mem {n : Nat} :
    ∀ (entries : List Entry) (acc : List Nat) (x : Nat),
      x ∈ pickWinners n entries acc → x ∈ acc ∨ x ∈ entries.map (·.classId) := by
  intro entries
  induction entries with
  | nil =>
    intro acc x hx
    rw [pickWinners_nil] at hx
    exact Or.inl hx
  | cons e rest ih =>
    intro acc x hx
    rw [pickWinners_cons] at hx
    set acc2 := if acc.length < n ∧ e.classId ∉ acc then acc ++ [e.classId] else acc with hacc2
    have hmem2 : ∀ y, y ∈ acc2 → y ∈ acc ∨ y = e.classId := by
      intro y hy
      rw [hacc2] at hy
      split at hy
      · rcases List.mem_append.mp hy with h | h
        · exact Or.inl h
        · exact Or.inr (List.mem_singleton.mp h)
      · exact Or.inl hy
    split at hx
    · rcases hmem2 x hx with h | h
      · exact Or.inl h
      · exact Or.inr (by simp [h])
    · rcases ih acc2 x hx with h | h
      · rcases hmem2 x h with h2 | h2
        · exact Or.inl h2
        · exact Or.inr (by simp [h2])
      · exact Or.inr (by simp [h])

theorem pickWinners_nodup {n : Nat} :
    ∀ (entries : List Entry) (acc : List Nat), acc.Nodup → (pickWinners n entries acc).Nodup := by
  intro entries
  induction entries with
  | nil =>
    intro acc h
    rw [pickWinners_nil]
    exact h
  | cons e rest ih =>
    intro acc h
    rw [pickWinners_cons]
    set acc2 := if acc.length < n ∧ e.classId ∉ acc then acc ++ [e.classId] else acc with hacc2
    have h2 : acc2.Nodup := by
      rw [hacc2]
      split
      · next hc => simp [List.nodup_append, h, hc.2]
      · exact h
    split
    · exact h2
    · exact ih acc2 h2

theorem pickWinners_length {n : Nat} :
    ∀ (entries : List Entry) (acc : List Nat), acc.Nodup → acc.length ≤ n →
      (pickWinners n entries acc).length =
        min n (acc.toFinset ∪ (entries.map (·.classId)).toFinset).card := by
  intro entries
  induction entries with
  | nil =>
    intro acc hnd hlen
    rw [pickWinners_nil]
    simp only [List.map_nil, List.toFinset_nil, Finset.union_empty]
    rw [List.toFinset_card_of_nodup hnd, Nat.min_eq_right hlen]
  | cons e rest ih =>
    intro acc hnd hlen
    rw [pickWinners_cons]
    have hsetcons : ((e :: rest).map (·.classId)).toFinset =
        insert e.classId (rest.map (·.classId)).toFinset := by
      simp
    by_cases hc : acc.length < n ∧ e.classId ∉ acc
    · rw [if_pos hc]
      have hnd2 : (acc ++ [e.classId]).Nodup := by
        simp [List.nodup_append, hnd, hc.2]
      have hlen2 : (acc ++ [e.classId]).length = acc.length + 1 := by simp
      have hset2 : (acc ++ [e.classId]).toFinset = insert e.classId acc.toFinset := by
        rw [List.toFinset_append]
        simp only [List.toFinset_cons, List.toFinset_nil, insert_emptyc_eq]
        rw [Finset.union_comm, ← Finset.insert_eq]
      by_cases hstop : n ≤ (acc ++ [e.classId]).length
      · rw [if_pos hstop]
        have heq : (acc ++ [e.classId]).length = n := by omega
        rw [heq]
        have hsub : (acc ++ [e.classId]).toFinset ⊆
            acc.toFinset ∪ ((e :: rest).map (·.classId)).toFinset := by
          rw [hset2, hsetcons]
          intro x hx
          rcases Finset.mem_insert.mp hx with h | h
          · exact Finset.mem_union_right _ (by simp [h])
          · exact Finset.mem_union_left _ h
        have hcard : n ≤ (acc.toFinset ∪ ((e :: rest).map (·.classId)).toFinset).card := by
          calc n = (acc ++ [e.classId]).toFinset.card := by
                rw [List.toFinset_card_of_nodup hnd2, heq]
            _ ≤ _ := Finset.card_le_card hsub
        rw [Nat.min_eq_left hcard]
      · rw [if_neg hstop]
        rw [ih (acc ++ [e.classId]) hnd2 (by omega)]
        have hsame : (acc ++ [e.classId]).toFinset ∪ (rest.map (·.classId)).toFinset =
            acc.toFinset ∪ ((e :: rest).map (·.classId)).toFinset := by
          rw [hset2, hsetcons]
          ext x
          simp only [Finset.mem_union, Finset.mem_insert]
          tauto
        rw [hsame]
    · rw [if_neg hc]
      by_cases hstop : n ≤ acc.length
      · rw [if_pos hstop]
        have heq : acc.length = n := by omega
        rw [heq]
        have hcard : n ≤ (acc.toFinset ∪ ((e :: rest).map (·.classId)).toFinset).card := by
          calc n = acc.toFinset.card := by rw [List.toFinset_card_of_nodup hnd, heq]
            _ ≤ _ := Finset.card_le_card Finset.subset_union_left
        rw [Nat.min_eq_left hcard]
      · rw [if_neg hstop]
        have hmem : e.classId ∈ acc := by
          rcases not_and_or.mp hc with h | h
          · omega
          · exact not_not.mp h
        rw [ih acc hnd hlen]
        have hsame : acc.toFinset ∪ (rest.map (·.classId)).toFinset =
            acc.toFinset ∪ ((e :: rest).map (·.classId)).toFinset := by
          rw [hsetcons]
          ext x
          simp only [Finset.mem_union, Finset.mem_insert]
          constructor
          · tauto
          · rintro (h | rfl | h)
            · exact Or.inl h
            · exact Or.inl (List.mem_toFinset.mpr hmem)
            · exact Or.inr h
        rw [hsame]

theorem pickWinners_complete {n : Nat} :
    ∀ (entries : List Entry) (acc : List Nat), acc.Nodup → acc.length ≤ n →
      (acc.toFinset ∪ (entries.map (·.classId)).toFinset).card ≤ n →
      ∀ x, (x ∈ acc ∨ x ∈ entries.map (·.classId)) → x ∈ pickWinners n entries acc := by
  intro entries
  induction entries with
  | nil =>
    intro acc hnd hlen hcard x hx
    rw [pickWinners_nil]
    rcases hx with h | h
    · exact h
    · simp at h
  | cons e rest ih =>
    intro acc hnd hlen hcard x hx
    rw [pickWinners_cons]
    have hsetcons : ((e :: rest).map (·.classId)).toFinset =
        insert e.classId (rest.map (·.classId)).toFinset := by
      simp
    have hxU : x ∈ acc.toFinset ∪ ((e :: rest).map (·.classId)).toFinset := by
      rcases hx with h | h
      · exact Finset.mem_union_left _ (List.mem_toFinset.mpr h)
      · exact Finset.mem_union_right _ (List.mem_toFinset.mpr h)
    by_cases hc : acc.length < n ∧ e.classId ∉ acc
    · rw [if_pos hc]
      have hnd2 : (acc ++ [e.classId]).Nodup := by
        simp [List.nodup_append, hnd, hc.2]
      have hset2 : (acc ++ [e.classId]).toFinset = insert e.classId acc.toFinset := by
        rw [List.toFinset_append]
        simp only [List.toFinset_cons, List.toFinset_nil, insert_emptyc_eq]
        rw [Finset.union_comm, ← Finset.insert_eq]
      have hsame : (acc ++ [e.classId]).toFinset ∪ (rest.map (·.classId)).toFinset =
          acc.toFinset ∪ ((e :: rest).map (·.classId)).toFinset := by
        rw [hset2, hsetcons]
        ext y
        simp only [Finset.mem_union, Finset.mem_insert]
        tauto
      by_cases hstop : n ≤ (acc ++ [e.classId]).length
      · rw [if_pos hstop]
        have heq : (acc ++ [e.classId]).length = n := by
          have : (acc ++ [e.classId]).length = acc.length + 1 := by simp
          omega
        have hcard2 : (acc ++ [e.classId]).toFinset.card = n := by
          rw [List.toFinset_card_of_nodup hnd2, heq]
        have hsub : (acc ++ [e.classId]).toFinset ⊆
            acc.toFinset ∪ ((e :: rest).map (·.classId)).toFinset := by
          rw [← hsame]
          exact Finset.subset_union_left
        have hfull : acc.toFinset ∪ ((e :: rest).map (·.classId)).toFinset ⊆
            (acc ++ [e.classId]).toFinset := by
          refine Finset.subset_of_eq (Finset.eq_of_subset_of_card_le hsub ?_).symm
          rw [hcard2]
          exact hcard
        exact List.mem_toFinset.mp (hfull hxU)
      · rw [if_neg hstop]
        apply ih (acc ++ [e.classId]) hnd2
        · have : (acc ++ [e.classId]).length = acc.length + 1 := by simp
          omega
        · rw [hsame]
          exact hcard
        · rcases hx with h | h
          · exact Or.inl (List.mem_append_left _ h)
          · simp only [List.map_cons, List.mem_cons] at h
            rcases h with h2 | h2
            · exact Or.inl (List.mem_append_right _ (by simp [h2]))
            · exact Or.inr h2
    · rw [if_neg hc]
      by_cases hstop : n ≤ acc.length
      · rw [if_pos hstop]
        have heq : acc.length = n := by omega
        have hcard2 : acc.toFinset.card = n := by
          rw [List.toFinset_card_of_nodup hnd, heq]
        have hfull : acc.toFinset ∪ ((e :: rest).map (·.classId)).toFinset ⊆
            acc.toFinset := by
          refine Finset.subset_of_eq
            (Finset.eq_of_subset_of_card_le Finset.subset_union_left ?_).symm
          rw [hcard2]
          exact hcard
        exact List.mem_toFinset.mp (hfull hxU)
      · rw [if_neg hstop]
        have hmem : e.classId ∈ acc := by
          rcases not_and_or.mp hc with h | h
          · omega
          · exact not_not.mp h
        apply ih acc hnd hlen
        · refine le_trans (Finset.card_le_card ?_) hcard
          intro y hy
          rcases Finset.mem_union.mp hy with h | h
          · exact Finset.mem_union_left _ h
          · exact Finset.mem_union_right _ (by rw [hsetcons]; exact Finset.mem_insert_of_mem h)
        · rcases hx with h | h
          · exact Or.inl h
          · simp only [List.map_cons, List.mem_cons] at h
            rcases h with h2 | h2
            · exact Or.inl (h2 ▸ hmem)
            · exact Or.inr h2

/-! Helper lemmas about the eligibility pass and the ticket pool. -/

/-- The eligibility test of the per-class loop, as a Boolean predicate. -/
def isEligibleClass (total : Nat) (scansAll : List Scan) (c : ClassDoc) : Bool :=
  decide (total ≤ stationsFoundCount (scansForClass scansAll c.cid))

theorem eligibleIds_eq_filter_map (total : Nat) (scansAll : List Scan) :
    ∀ classes : List ClassDoc,
      eligibleIds total scansAll classes =
        (classes.filter (isEligibleClass total scansAll)).map (·.cid) := by
  intro classes
  induction classes with
  | nil => rfl
  | cons c rest ih =>
    by_cases h : stationsFoundCount (scansForClass scansAll c.cid) < total
    · rw [show eligibleIds total scansAll (c :: rest) = eligibleIds total scansAll rest from
        if_pos h]
      have hb : isEligibleClass total scansAll c = false := by
        simp [isEligibleClass]
        omega
      rw [List.filter_cons_of_neg (by simp [hb]), ih]
    · rw [show eligibleIds total scansAll (c :: rest) =
          c.cid :: eligibleIds total scansAll rest from if_neg h]
      have hb : isEligibleClass total scansAll c = true := by
        simp [isEligibleClass]
        omega
      rw [List.filter_cons_of_pos (by simp [hb]), List.map_cons, ih]

theorem one_le_max_toNat (x : ℤ) : 1 ≤ (max 1 x).toNat := by
  have h : (1 : ℤ) ≤ max 1 x := le_max_left 1 x
  omega

theorem classWeight_pos (wf : WeightingFactors) (total : Nat) (scans : List Scan) :
    1 ≤ classWeight wf total scans := by
  unfold classWeight
  exact one_le_max_toNat _

theorem entryPool_classIds (wf : WeightingFactors) (total : Nat) (scansAll : List Scan) :
    ∀ classes : List ClassDoc,
      ((entryPool wf total scansAll classes).map (·.classId)).toFinset =
        (eligibleIds total scansAll classes).toFinset := by
  intro classes
  induction classes with
  | nil => rfl
  | cons c rest ih =>
    by_cases h : stationsFoundCount (scansForClass scansAll c.cid) < total
    · rw [show entryPool wf total scansAll (c :: rest) = entryPool wf total scansAll rest from
        if_pos h]
      rw [show eligibleIds total scansAll (c :: rest) = eligibleIds total scansAll rest from
        if_pos h]
      exact ih
    · rw [show entryPool wf total scansAll (c :: rest) =
          List.replicate (classWeight wf total (scansForClass scansAll c.cid)) (mkEntry c) ++
            entryPool wf total scansAll rest from if_neg h]
      rw [show eligibleIds total scansAll (c :: rest) =
          c.cid :: eligibleIds total scansAll rest from if_neg h]
      rw [List.map_append, List.toFinset_append]
      have hrep : (List.replicate (classWeight wf total (scansForClass scansAll c.cid))
          (mkEntry c)).map (·.classId) =
          List.replicate (classWeight wf total (scansForClass scansAll c.cid)) c.cid := by
        rw [List.map_replicate]
        rfl
      have hne : classWeight wf total (scansForClass scansAll c.cid) ≠ 0 := by
        have hp := classWeight_pos wf total (scansForClass scansAll c.cid)
        omega
      rw [hrep, List.toFinset_replicate_of_ne_zero hne, ih, List.toFinset_cons,
        Finset.insert_eq]

theorem entryPool_eq_nil_iff (wf : WeightingFactors) (total : Nat) (scansAll : List Scan)
    (classes : List ClassDoc) :
    entryPool wf total scansAll classes = [] ↔
      ∀ c ∈ classes, stationsFoundCount (scansForClass scansAll c.cid) < total := by
  induction classes with
  | nil => simp [entryPool]
  | cons c rest ih =>
    by_cases h : stationsFoundCount (scansForClass scansAll c.cid) < total
    · rw [show entryPool wf total scansAll (c :: rest) = entryPool wf total scansAll rest from
        if_pos h]
      rw [ih]
      constructor
      · intro hall x hx
        rcases List.mem_cons.mp hx with rfl | hx2
        · exact h
        · exact hall x hx2
      · intro hall x hx
        exact hall x (List.mem_cons_of_mem _ hx)
    · rw [show entryPool wf total scansAll (c :: rest) =
          List.replicate (classWeight wf total (scansForClass scansAll c.cid)) (mkEntry c) ++
            entryPool wf total scansAll rest from if_neg h]
      constructor
      · intro hnil
        exfalso
        have hsplit := List.append_eq_nil.mp hnil
        have hw := classWeight_pos wf total (scansForClass scansAll c.cid)
        have hlen : (List.replicate (classWeight wf total (scansForClass scansAll c.cid))
            (mkEntry c)).length = 0 := by
          rw [hsplit.1]
          rfl
        rw [List.length_replicate] at hlen
        omega
      · intro hall
        exact absurd (hall c (List.mem_cons_self c rest)) h

theorem eligibleIds_nodup (total : Nat) (scansAll : List Scan) (classes : List ClassDoc)
    (hnd : (classes.map (·.cid)).Nodup) : (eligibleIds total scansAll classes).Nodup := by
  rw [eligibleIds_eq_filter_map]
  have hsub : ((classes.filter (isEligibleClass total scansAll)).map (·.cid)).Sublist
      (classes.map (·.cid)) := (List.filter_sublist classes).map _
  exact hsub.nodup hnd

theorem eligibleIds_mem_iff (total : Nat) (scansAll : List Scan) (classes : List ClassDoc)
    (hnd : (classes.map (·.cid)).Nodup) (c : ClassDoc) (hc : c ∈ classes) :
    c.cid ∈ eligibleIds total scansAll classes ↔
      total ≤ stationsFoundCount (scansForClass scansAll c.cid) := by
  rw [eligibleIds_eq_filter_map]
  constructor
  · intro h
    rcases List.mem_map.mp h with ⟨c2, hc2, hcid⟩
    rcases List.mem_filter.mp hc2 with ⟨hc2mem, hc2el⟩
    have : c2 = c := List.inj_on_of_nodup_map hnd hc2mem hc hcid
    subst this
    simpa [isEligibleClass] using hc2el
  · intro h
    exact List.mem_map.mpr ⟨c, List.mem_filter.mpr ⟨hc, by simp [isEligibleClass, h]⟩, rfl⟩

theorem entryPool_count_eq_zero (wf : WeightingFactors) (total : Nat) (scansAll : List Scan)
    (classes : List ClassDoc) (x : Nat) (hx : x ∉ classes.map (·.cid)) :
    ((entryPool wf total scansAll classes).map (·.classId)).count x = 0 := by
  rw [List.count_eq_zero]
  intro hmem
  apply hx
  have h1 : x ∈ ((entryPool wf total scansAll classes).map (·.classId)).toFinset :=
    List.mem_toFinset.mpr hmem
  rw [entryPool_classIds] at h1
  have h2 : x ∈ eligibleIds total scansAll classes := List.mem_toFinset.mp h1
  rw [eligibleIds_eq_filter_map] at h2
  rcases List.mem_map.mp h2 with ⟨c2, hc2, hcid⟩
  exact List.mem_map.mpr ⟨c2, (List.mem_filter.mp hc2).1, hcid⟩

theorem entryPool_count (wf : WeightingFactors) (total : Nat) (scansAll : List Scan) :
    ∀ (classes : List ClassDoc) (c : ClassDoc), (classes.map (·.cid)).Nodup → c ∈ classes →
      total ≤ stationsFoundCount (scansForClass scansAll c.cid) →
      ((entryPool wf total scansAll classes).map (·.classId)).count c.cid =
        classWeight wf total (scansForClass scansAll c.cid) := by
  intro classes
  induction classes with
  | nil =>
    intro c _ hc
    simp at hc
  | cons c0 rest ih =>
    intro c hnd hc hel
    have hnd0 : (rest.map (·.cid)).Nodup := (List.nodup_cons.mp (by simpa using hnd)).2
    have hc0nin : c0.cid ∉ rest.map (·.cid) := (List.nodup_cons.mp (by simpa using hnd)).1
    rcases List.mem_cons.mp hc with rfl | hcr
    · rw [show entryPool wf total scansAll (c :: rest) =
          List.replicate (classWeight wf total (scansForClass scansAll c.cid)) (mkEntry c) ++
            entryPool wf total scansAll rest from if_neg (by omega)]
      rw [List.map_append, List.count_append]
      have h1 : ((List.replicate (classWeight wf total (scansForClass scansAll c.cid))
          (mkEntry c)).map (·.classId)).count c.cid =
          classWeight wf total (scansForClass scansAll c.cid) := by
        rw [List.map_replicate]
        simp [mkEntry]
      rw [h1, entryPool_count_eq_zero wf total scansAll rest c.cid hc0nin, Nat.add_zero]
    · have hcid_ne : c.cid ≠ c0.cid := by
        intro heq
        exact hc0nin (heq ▸ List.mem_map.mpr ⟨c, hcr, rfl⟩)
      by_cases h0 : stationsFoundCount (scansForClass scansAll c0.cid) < total
      · rw [show entryPool wf total scansAll (c0 :: rest) = entryPool wf total scansAll rest from
          if_pos h0]
        exact ih c hnd0 hcr hel
      · rw [show entryPool wf total scansAll (c0 :: rest) =
            List.replicate (classWeight wf total (scansForClass scansAll c0.cid)) (mkEntry c0) ++
              entryPool wf total scansAll rest from if_neg h0]
        rw [List.map_append, List.count_append]
        have h1 : ((List.replicate (classWeight wf total (scansForClass scansAll c0.cid))
            (mkEntry c0)).map (·.classId)).count c.cid = 0 := by
          rw [List.map_replicate]
          simp [mkEntry, List.count_replicate, Ne.symm hcid_ne]
        rw [h1, ih c hnd0 hcr hel, Nat.zero_add]

theorem classWeight_eq_claimAmended (wf : WeightingFactors) (total : Nat) (scans : List Scan) :
    classWeight wf total scans = claimTicketWeightAmended wf total scans := by
  simp only [classWeight, claimTicketWeightAmended]
  by_cases h1 : stationsFoundCount scans = total ∧ scans ≠ []
  · by_cases h2 : 0 < completionMinutes scans ∧ wf.completionTime ≠ 0
    · rw [if_pos h1, if_pos h2, if_pos ⟨h1.1, h1.2, h2.1, h2.2⟩]
    · rw [if_pos h1, if_neg h2, if_neg (by tauto), add_zero]
  · rw [if_neg h1, if_neg (by tauto), add_zero]

/-! Helper lemmas about recordScan and the class store. -/

theorem classes_inj (db : DB) (hnd : (db.classes.map (·.cid)).Nodup)
    {a b : ClassDoc} (ha : a ∈ db.classes) (hb : b ∈ db.classes) (h : a.cid = b.cid) : a = b :=
  List.inj_on_of_nodup_map hnd ha hb h

theorem mem_updateClass_cases (db : DB) (cNew x : ClassDoc)
    (hx : x ∈ (updateClass db cNew).classes) :
    x = cNew ∨ (x ∈ db.classes ∧ x.cid ≠ cNew.cid) := by
  rcases List.mem_map.mp hx with ⟨y, hy, hfy⟩
  by_cases h : y.cid = cNew.cid
  · left
    rw [← hfy, if_pos h]
  · right
    rw [← hfy, if_neg h]
    exact ⟨hy, h⟩

theorem completionUpdate_cid (t now : Nat) (c : ClassDoc) :
    (completionUpdate t now c).cid = c.cid := by
  unfold completionUpdate
  split_ifs <;> rfl

theorem completionUpdate_isActive (t now : Nat) (c : ClassDoc) :
    (completionUpdate t now c).isActive = c.isActive := by
  unfold completionUpdate
  split_ifs <;> rfl

theorem completionUpdate_stationsScanned (t now : Nat) (c : ClassDoc) :
    (completionUpdate t now c).stationsScanned = c.stationsScanned := by
  unfold completionUpdate
  split_ifs <;> rfl

theorem completionUpdate_lastScanAt (t now : Nat) (c : ClassDoc) :
    (completionUpdate t now c).lastScanAt = c.lastScanAt := by
  unfold completionUpdate
  split_ifs <;> rfl

theorem completionUpdate_of_completed (t now : Nat) (c : ClassDoc)
    (h : c.isCompleted = true) : completionUpdate t now c = c := by
  unfold completionUpdate
  rw [if_pos h]

theorem find?_map_update (cid : Nat) (c3 : ClassDoc) :
    ∀ (l : List ClassDoc) (c0 : ClassDoc),
      l.find? (fun x => x.cid == cid) = some c0 → c3.cid = c0.cid →
      (l.map (fun x => if x.cid = c3.cid then c3 else x)).find? (fun x => x.cid == cid) =
        some c3 := by
  intro l
  induction l with
  | nil =>
    intro c0 h
    simp at h
  | cons y rest ih =>
    intro c0 h h3
    rw [List.find?_cons_eq_some] at h
    rw [List.map_cons, List.find?_cons_eq_some]
    rcases h with ⟨hpy, hyc⟩ | ⟨hpy, hrest⟩
    · subst hyc
      have hycid : y.cid = cid := by simpa using hpy
      have hhead : (if y.cid = c3.cid then c3 else y) = c3 := if_pos (by omega)
      left
      constructor
      · rw [hhead]
        simp only [beq_iff_eq]
        omega
      · exact hhead
    · have hycid : y.cid ≠ cid := by simpa using hpy
      have hc0cid : c0.cid = cid := by simpa using List.find?_some hrest
      have hhead : (if y.cid = c3.cid then c3 else y) = y := if_neg (by omega)
      right
      constructor
      · rw [hhead]
        simpa using hycid
      · exact ih c0 hrest h3

theorem find?_append_of_none {p : Scan → Bool} {l1 l2 : List Scan}
    (h : l1.find? p = none) : (l1 ++ l2).find? p = l2.find? p := by
  rw [List.find?_append, h]
  rfl

theorem newScanClassUpdate_cid (sid now t : Nat) (c : ClassDoc) :
    (newScanClassUpdate sid now t c).cid = c.cid := by
  unfold newScanClassUpdate
  by_cases h : sid ∈ c.stationsScanned <;> simp [h, completionUpdate_cid]

theorem newScanClassUpdate_isActive (sid now t : Nat) (c : ClassDoc) :
    (newScanClassUpdate sid now t c).isActive = c.isActive := by
  unfold newScanClassUpdate
  by_cases h : sid ∈ c.stationsScanned <;> simp [h, completionUpdate_isActive]

theorem newScanClassUpdate_completed (sid now t : Nat) (c : ClassDoc)
    (h : c.isCompleted = true) :
    (newScanClassUpdate sid now t c).isCompleted = true ∧
      (newScanClassUpdate sid now t c).completedAt = c.completedAt := by
  unfold newScanClassUpdate
  by_cases hm : sid ∈ c.stationsScanned <;>
    · simp only [hm, if_pos, if_neg, ite_true, ite_false]
      rw [completionUpdate_of_completed _ _ _ (by simpa using h)]
      simp [h]

theorem recordScan_classes_shape (i j : Option Nat) (now : Nat) (db : DB) :
    (recordScan i j now db).2.classes = db.classes ∨
    ∃ (cid : Nat) (c0 cNew : ClassDoc),
      db.classes.find? (fun x => x.cid == cid) = some c0 ∧
      cNew.cid = c0.cid ∧
      (c0.isCompleted = true → cNew.isCompleted = true ∧ cNew.completedAt = c0.completedAt) ∧
      (recordScan i j now db).2.classes = (updateClass db cNew).classes := by
  match i, j with
  | none, none => exact Or.inl rfl
  | none, some _ => exact Or.inl rfl
  | some _, none => exact Or.inl rfl
  | some cid, some qr =>
    rcases hst : db.stations.find? (fun s => s.sid == qr) with _ | st
    · left
      simp [recordScan, hst]
    · by_cases hact : st.isActive
      · rcases hcl : db.classes.find? (fun x => x.cid == cid) with _ | c0
        · left
          simp [recordScan, hst, hact, hcl]
        · by_cases hcact : c0.isActive
          · rcases hsc : db.scans.find? (fun s => s.classId == cid && s.stationId == st.sid)
              with _ | s0
            · -- new scan: the class is replaced by newScanClassUpdate
              right
              refine ⟨cid, c0, newScanClassUpdate st.sid now
                (activeStationCount { db with scans := db.scans ++ [⟨cid, st.sid, now⟩] }) c0,
                hcl, newScanClassUpdate_cid _ _ _ _, ?_, ?_⟩
              · intro h
                exact newScanClassUpdate_completed _ _ _ _ h
              · simp [recordScan, hst, hact, hcl, hcact, hsc, updateClass]
            · -- repeat scan
              by_cases hnow : c0.lastScanAt = some now
              · left
                simp [recordScan, hst, hact, hcl, hcact, hsc, hnow]
              · right
                refine ⟨cid, c0, repeatScanClassUpdate now c0, hcl, rfl, ?_, ?_⟩
                · intro h
                  exact ⟨h, rfl⟩
                · simp [recordScan, hst, hact, hcl, hcact, hsc, hnow]
          · left
            simp [recordScan, hst, hact, hcl, hcact]
      · left
        simp [recordScan, hst, hact]

theorem recordScan_zero_active (db : DB) (h : activeStationCount db = 0)
    (i j : Option Nat) (now : Nat) :
    ∃ e, recordScan i j now db = (.error e, db) := by
  have hstations : ∀ st ∈ db.stations, st.isActive = false := by
    intro st hst
    have hnil : db.stations.filter (·.isActive) = [] :=
      List.length_eq_zero.mp h
    have := List.filter_eq_nil_iff.mp hnil st hst
    simpa using this
  match i, j with
  | none, none => exact ⟨.missingFields, rfl⟩
  | none, some _ => exact ⟨.missingFields, rfl⟩
  | some _, none => exact ⟨.missingFields, rfl⟩
  | some cid, some qr =>
    rcases hfind : db.stations.find? (fun s => s.sid == qr) with _ | st
    · exact ⟨.stationNotFound, by simp [recordScan, hfind]⟩
    · have hmem := List.mem_of_find?_eq_some hfind
      have hinactive : st.isActive = false := hstations st hmem
      exact ⟨.stationInactive, by simp [recordScan, hfind, hinactive]⟩

/-! Helper lemmas about the runDrawing control flow. -/

theorem runDrawing_invalid (n? : Option Int) (p? : Option String) (d? : Option Drawing)
    (db : DB) (sh : List Entry → List Entry) (hv : validWinnerCount n? = false) :
    runDrawing n? p? d? db sh = (.error .invalidWinners, d?) := by
  unfold runDrawing
  rw [if_pos hv]

theorem runDrawing_notFound (n? : Option Int) (p? : Option String) (db : DB)
    (sh : List Entry → List Entry) (hv : validWinnerCount n? = true) :
    runDrawing n? p? none db sh = (.error .notFound, none) := by
  unfold runDrawing
  rw [if_neg (by simp [hv])]

theorem runDrawing_completed (n? : Option Int) (p? : Option String) (d : Drawing) (db : DB)
    (sh : List Entry → List Entry) (hv : validWinnerCount n? = true)
    (hst : d.status = .completed) :
    runDrawing n? p? (some d) db sh = (.error .alreadyCompleted, some d) := by
  unfold runDrawing
  rw [if_neg (by simp [hv])]
  simp [hst]

theorem runDrawing_noStations (n? : Option Int) (p? : Option String) (d : Drawing) (db : DB)
    (sh : List Entry → List Entry) (hv : validWinnerCount n? = true)
    (hst : d.status ≠ .completed) (h0 : activeStationCount db = 0) :
    runDrawing n? p? (some d) db sh = (.error .noActiveStations, some d) := by
  unfold runDrawing
  rw [if_neg (by simp [hv])]
  simp [hst, h0]

theorem runDrawing_noEligible (n? : Option Int) (p? : Option String) (d : Drawing) (db : DB)
    (sh : List Entry → List Entry) (hv : validWinnerCount n? = true)
    (hst : d.status ≠ .completed) (h0 : activeStationCount db ≠ 0)
    (hpool : entryPool d.weightingFactors (activeStationCount db) db.scans
      (db.classes.filter (·.isActive)) = []) :
    runDrawing n? p? (some d) db sh = (.error .noEligible, some d) := by
  unfold runDrawing
  rw [if_neg (by simp [hv])]
  simp [hst, h0, hpool]

/-- The drawing document produced on a successful run. -/
def runResult (n? : Option Int) (p? : Option String) (d : Drawing) (db : DB)
    (sh : List Entry → List Entry) : Drawing :=
  { d with
    eligibleClasses := d.eligibleClasses ++
      eligibleIds (activeStationCount db) db.scans (db.classes.filter (·.isActive))
    winners := (pickWinners (n?.getD 0).toNat
        (sh (entryPool d.weightingFactors (activeStationCount db) db.scans
          (db.classes.filter (·.isActive)))) []).map
      (fun w => Winner.mk w (prizeOrDefault p?) false)
    status := .completed }

theorem runDrawing_success (n? : Option Int) (p? : Option String) (d : Drawing) (db : DB)
    (sh : List Entry → List Entry) (hv : validWinnerCount n? = true)
    (hst : d.status ≠ .completed) (h0 : activeStationCount db ≠ 0)
    (hpool : entryPool d.weightingFactors (activeStationCount db) db.scans
      (db.classes.filter (·.isActive)) ≠ []) :
    runDrawing n? p? (some d) db sh =
      (.ok (runResult n? p? d db sh), some (runResult n? p? d db sh)) := by
  unfold runDrawing runResult
  rw [if_neg (by simp [hv])]
  simp [hst, h0, hpool]

theorem runDrawing_ok_shape (n? : Option Int) (p? : Option String) (d : Drawing) (db : DB)
    (sh : List Entry → List Entry) (res : Drawing)
    (h : (runDrawing n? p? (some d) db sh).1 = .ok res) :
    validWinnerCount n? = true ∧ d.status ≠ .completed ∧ activeStationCount db ≠ 0 ∧
      entryPool d.weightingFactors (activeStationCount db) db.scans
        (db.classes.filter (·.isActive)) ≠ [] ∧
      res = runResult n? p? d db sh := by
  by_cases hv : validWinnerCount n? = false
  · rw [runDrawing_invalid n? p? (some d) db sh hv] at h
    simp at h
  · have hv2 : validWinnerCount n? = true := by
      cases hb : validWinnerCount n? with
      | false => exact absurd hb hv
      | true => rfl
    by_cases hst : d.status = .completed
    · rw [runDrawing_completed n? p? d db sh hv2 hst] at h
      simp at h
    · by_cases h0 : activeStationCount db = 0
      · rw [runDrawing_noStations n? p? d db sh hv2 hst h0] at h
        simp at h
      · by_cases hpool : entryPool d.weightingFactors (activeStationCount db) db.scans
            (db.classes.filter (·.isActive)) = []
        · rw [runDrawing_noEligible n? p? d db sh hv2 hst h0 hpool] at h
          simp at h
        · rw [runDrawing_success n? p? d db sh hv2 hst h0 hpool] at h
          simp only [Except.ok.injEq] at h
          exact ⟨hv2, hst, h0, hpool, h.symm⟩

/-! Concrete fixtures used by the witnesses below. -/

/-- A teacher used by the witness classes. -/
def teacherW : TeacherInfo := ⟨7, "Terry", "terry@example.org"⟩

/-- A class that scanned all three witness stations. -/
def classWA : ClassDoc := ⟨1, "ClassA", "School", "5", 20, teacherW, true, [1, 2, 3],
  false, none, none, 0⟩

/-- A class that scanned only two of the three witness stations. -/
def classWB : ClassDoc := ⟨2, "ClassB", "School", "5", 21, teacherW, true, [1, 2],
  false, none, none, 0⟩

/-- A store with three active stations, class 1 having scanned all of
them and class 2 having scanned two. -/
def dbW : DB := ⟨[⟨1, "S1", true⟩, ⟨2, "S2", true⟩, ⟨3, "S3", true⟩], [classWA, classWB],
  [⟨1, 1, 60000⟩, ⟨1, 2, 120000⟩, ⟨1, 3, 180000⟩, ⟨2, 1, 60000⟩, ⟨2, 2, 120000⟩]⟩

/-- Weighting factors used by the witness drawing. -/
def wfW : WeightingFactors := ⟨5, 1⟩

/-- A pending drawing. -/
def drawW : Drawing := ⟨10, "Draw", [], [], wfW, .pending⟩

/-- A drawing whose status is already completed. -/
def drawWdone : Drawing := ⟨10, "Draw", [], [], wfW, .completed⟩

/-- The witness store with its only station deactivated. -/
def dbW0 : DB := { dbW with stations := [⟨1, "S1", false⟩] }

/-- The witness store with an empty scan history. -/
def dbWnoScans : DB := { dbW with scans := [] }

/-! Claim theorems. -/

/-- C5: runDrawing signals exactly these errors - missing or non-positive
numberOfWinners gives the 400-class invalid-winners error, a missing
drawing gives 404, a drawing already completed gives 409, zero active
stations gives 400 and an empty eligible pool (every active class short
of full coverage) gives 400 - and in every such case the drawing
document is left unchanged, so no winners are selected. -/
theorem c5_runDrawing_errors :
    ∀ (n? : Option Int) (p? : Option String) (d? : Option Drawing) (db : DB)
      (sh : List Entry → List Entry),
      (validWinnerCount n? = false →
        runDrawing n? p? d? db sh = (.error .invalidWinners, d?) ∧
          runErrStatus .invalidWinners = 400) ∧
      (validWinnerCount n? = true → d? = none →
        runDrawing n? p? d? db sh = (.error .notFound, none) ∧
          runErrStatus .notFound = 404) ∧
      (∀ d, validWinnerCount n? = true → d? = some d → d.status = .completed →
        runDrawing n? p? d? db sh = (.error .alreadyCompleted, some d) ∧
          runErrStatus .alreadyCompleted = 409) ∧
      (∀ d, validWinnerCount n? = true → d? = some d → d.status ≠ .completed →
        activeStationCount db = 0 →
        runDrawing n? p? d? db sh = (.error .noActiveStations, some d) ∧
          runErrStatus .noActiveStations = 400) ∧
      (∀ d, validWinnerCount n? = true → d? = some d → d.status ≠ .completed →
        activeStationCount db ≠ 0 →
        (∀ c ∈ db.classes, c.isActive = true →
          stationsFoundCount (scansForClass db.scans c.cid) < activeStationCount db) →
        runDrawing n? p? d? db sh = (.error .noEligible, some d) ∧
          runErrStatus .noEligible = 400) := by
  intro n? p? d? db sh
  refine ⟨?_, ?_, ?_, ?_, ?_⟩
  · intro hv
    exact ⟨runDrawing_invalid _ _ _ _ _ hv, rfl⟩
  · intro hv hd
    subst hd
    exact ⟨runDrawing_notFound _ _ _ _ hv, rfl⟩
  · intro d hv hd hst
    subst hd
    exact ⟨runDrawing_completed _ _ _ _ _ hv hst, rfl⟩
  · intro d hv hd hst h0
    subst hd
    exact ⟨runDrawing_noStations _ _ _ _ _ hv hst h0, rfl⟩
  · intro d hv hd hst h0 hall
    subst hd
    have hpool : entryPool d.weightingFactors (activeStationCount db) db.scans
        (db.classes.filter (·.isActive)) = [] := by
      rw [entryPool_eq_nil_iff]
      intro c hc
      rcases List.mem_filter.mp hc with ⟨hmem, hact⟩
      exact hall c hmem (by simpa using hact)
    exact ⟨runDrawing_noEligible _ _ _ _ _ hv hst h0 hpool, rfl⟩

/-- Witness for C5: each error case evaluated at a concrete input. -/
theorem c5_witness :
    (runDrawing none none (some drawW) dbW id = (.error .invalidWinners, some drawW) ∧
      runErrStatus .invalidWinners = 400) ∧
    (runDrawing (some 2) none none dbW id = (.error .notFound, none) ∧
      runErrStatus .notFound = 404) ∧
    (runDrawing (some 2) none (some drawWdone) dbW id =
        (.error .alreadyCompleted, some drawWdone) ∧ runErrStatus .alreadyCompleted = 409) ∧
    (runDrawing (some 2) none (some drawW) dbW0 id =
        (.error .noActiveStations, some drawW) ∧ runErrStatus .noActiveStations = 400) ∧
    (runDrawing (some 2) none (some drawW) dbWnoScans id =
        (.error .noEligible, some drawW) ∧ runErrStatus .noEligible = 400) :=
  ⟨(c5_runDrawing_errors none none (some drawW) dbW id).1 (by decide),
   (c5_runDrawing_errors (some 2) none none dbW id).2.1 (by decide) rfl,
   (c5_runDrawing_errors (some 2) none (some drawWdone) dbW id).2.2.1 drawWdone (by decide)
     rfl (by decide),
   (c5_runDrawing_errors (some 2) none (some drawW) dbW0 id).2.2.2.1 drawW (by decide) rfl
     (by decide) (by decide),
   (c5_runDrawing_errors (some 2) none (some drawW) dbWnoScans id).2.2.2.2 drawW (by decide)
     rfl (by decide) (by decide) (by decide)⟩

/-- C6: a completed drawing is terminal - running it again leaves the
stored drawing (winners, eligibleClasses, status) unchanged and, for a
valid winner count, reports the 409 conflict error. -/
theorem c6_completed_drawing_conflict :
    ∀ (n? : Option Int) (p? : Option String) (d : Drawing) (db : DB)
      (sh : List Entry → List Entry),
      d.status = .completed →
      (runDrawing n? p? (some d) db sh).2 = some d ∧
      (validWinnerCount n? = true →
        (runDrawing n? p? (some d) db sh).1 = .error .alreadyCompleted ∧
        runErrStatus .alreadyCompleted = 409) := by
  intro n? p? d db sh hst
  by_cases hv : validWinnerCount n? = false
  · rw [runDrawing_invalid _ _ _ _ _ hv]
    exact ⟨rfl, fun h => absurd h (by simp [hv])⟩
  · have hv2 : validWinnerCount n? = true := by
      cases hb : validWinnerCount n? with
      | false => exact absurd hb hv
      | true => rfl
    rw [runDrawing_completed _ _ _ _ _ hv2 hst]
    exact ⟨rfl, fun _ => ⟨rfl, rfl⟩⟩

/-- Witness for C6 at a concrete completed drawing. -/
theorem c6_witness :
    (runDrawing (some 3) none (some drawWdone) dbW id).2 = some drawWdone ∧
    ((runDrawing (some 3) none (some drawWdone) dbW id).1 = .error .alreadyCompleted ∧
      runErrStatus .alreadyCompleted = 409) :=
  have h := c6_completed_drawing_conflict (some 3) none drawWdone dbW id (by decide)
  ⟨h.1, h.2 (by decide)⟩

/-- C9 (amended): with zero active stations, recordScan always fails and
leaves the store untouched - the code branch that would mark a class
immediately completed in that situation is unreachable, because the
scanned station must itself be active - while the drawing-eligibility
paths report the zero-active-stations error. -/
theorem c9_zero_active_stations :
    ∀ db : DB, activeStationCount db = 0 →
      (∀ (i j : Option Nat) (now : Nat),
        (recordScan i j now db).2 = db ∧ (recordScan i j now db).1.isOk = false) ∧
      getEligibleClassesForDrawing db = .error .noActiveStations ∧
      (∀ (n? : Option Int) (p? : Option String) (d : Drawing)
        (sh : List Entry → List Entry),
        validWinnerCount n? = true → d.status ≠ .completed →
        runDrawing n? p? (some d) db sh = (.error .noActiveStations, some d)) := by
  intro db h0
  refine ⟨?_, ?_, ?_⟩
  · intro i j now
    rcases recordScan_zero_active db h0 i j now with ⟨e, he⟩
    rw [he]
    exact ⟨rfl, rfl⟩
  · simp [getEligibleClassesForDrawing, h0]
  · intro n? p? d sh hv hst
    exact runDrawing_noStations _ _ _ _ _ hv hst h0

/-- Counterexample for C9 as stated: no execution of recordScan with
zero active stations succeeds or modifies the store at all, so in
particular none marks the scanning class as completed. -/
theorem c9_counterexample :
    ¬ ∃ (db : DB) (i j : Option Nat) (now : Nat),
        activeStationCount db = 0 ∧
        ((recordScan i j now db).2 ≠ db ∨ (recordScan i j now db).1.isOk = true) := by
  rintro ⟨db, i, j, now, h0, hbad⟩
  rcases recordScan_zero_active db h0 i j now with ⟨e, he⟩
  rcases hbad with hbad | hbad
  · exact hbad (by rw [he])
  · rw [he] at hbad
    simp [Except.isOk, Except.toBool] at hbad

/-- Witness for C9 at a concrete store with a single inactive station. -/
theorem c9_witness :
    ((recordScan (some 1) (some 1) 5 dbW0).2 = dbW0 ∧
      (recordScan (some 1) (some 1) 5 dbW0).1.isOk = false) ∧
    getEligibleClassesForDrawing dbW0 = .error .noActiveStations ∧
    runDrawing (some 2) none (some drawW) dbW0 id = (.error .noActiveStations, some drawW) :=
  have h := c9_zero_active_stations dbW0 (by decide)
  ⟨h.1 (some 1) (some 1) 5, h.2.1, h.2.2 (some 2) none drawW id (by decide) (by decide)⟩

/-- Projecting the class id back out of the winner objects built from a
list of picked ids gives back that list. -/
theorem map_winClass_mk (p : String) :
    ∀ l : List Nat, ((l.map (fun w => Winner.mk w p false)).map (·.winClass)) = l := by
  intro l
  induction l with
  | nil => rfl
  | cons a t ih => simp [ih]

/-- C1: for every active class considered by runDrawing, membership in
the eligible list of the saved drawing holds iff the distinct-station
count of the class reaches the active-station total; every winner id is
in that eligible list; and the eligible-classes query agrees with the
same criterion. -/
theorem c1_eligibility_full_coverage :
    ∀ (db : DB) (d : Drawing) (n : Int) (p? : Option String)
      (sh : List Entry → List Entry) (res : Drawing),
      (db.classes.map (·.cid)).Nodup →
      d.eligibleClasses = [] →
      (∀ l, List.Perm (sh l) l) →
      (runDrawing (some n) p? (some d) db sh).1 = .ok res →
      (∀ c ∈ db.classes, c.isActive = true →
        (c.cid ∈ res.eligibleClasses ↔
          activeStationCount db ≤ stationsFoundCount (scansForClass db.scans c.cid))) ∧
      (∀ w ∈ res.winners, w.winClass ∈ res.eligibleClasses) ∧
      (∀ rows, getEligibleClassesForDrawing db = .ok rows →
        ∀ c ∈ db.classes, c.isActive = true →
          ((∃ r ∈ rows, r.cid = c.cid) ↔
            activeStationCount db ≤ stationsFoundCount (scansForClass db.scans c.cid))) := by
  intro db d n p? sh res hnd hinit hperm hok
  rcases runDrawing_ok_shape _ _ _ _ _ _ hok with ⟨hv, hst, h0, hpool, hres⟩
  have hndf : ((db.classes.filter (·.isActive)).map (·.cid)).Nodup :=
    ((List.filter_sublist db.classes).map _).nodup hnd
  have helig : res.eligibleClasses =
      eligibleIds (activeStationCount db) db.scans (db.classes.filter (·.isActive)) := by
    rw [hres]
    simp [runResult, hinit]
  refine ⟨?_, ?_, ?_⟩
  · intro c hc hact
    rw [helig]
    exact eligibleIds_mem_iff _ _ _ hndf c (List.mem_filter.mpr ⟨hc, by simp [hact]⟩)
  · intro w hw
    have hwl : res.winners = (pickWinners ((some n : Option Int).getD 0).toNat
        (sh (entryPool d.weightingFactors (activeStationCount db) db.scans
          (db.classes.filter (·.isActive)))) []).map
        (fun x => Winner.mk x (prizeOrDefault p?) false) := by
      rw [hres]
      rfl
    rw [hwl] at hw
    rcases List.mem_map.mp hw with ⟨x, hx, hwx⟩
    rcases pickWinners_mem _ _ _ hx with h | h
    · simp at h
    · have hpermIds : List.Perm ((sh (entryPool d.weightingFactors (activeStationCount db)
          db.scans (db.classes.filter (·.isActive)))).map (·.classId))
          ((entryPool d.weightingFactors (activeStationCount db) db.scans
            (db.classes.filter (·.isActive))).map (·.classId)) :=
        (hperm _).map _
      have hxpool := hpermIds.mem_iff.mp h
      have hxfin : x ∈ (eligibleIds (activeStationCount db) db.scans
          (db.classes.filter (·.isActive))).toFinset := by
        rw [← entryPool_classIds]
        exact List.mem_toFinset.mpr hxpool
      rw [helig, ← hwx]
      simpa using List.mem_toFinset.mp hxfin
  · intro rows hrows c hc hact
    have hrows2 : rows = (db.classes.filter (·.isActive)).filterMap (fun c2 =>
        if activeStationCount db ≤ stationsFoundCount (scansForClass db.scans c2.cid) then
          some ⟨c2.cid, c2.name, c2.school, c2.grade, c2.teacher.name, c2.teacher.email,
                c2.studentCount, stationsFoundCount (scansForClass db.scans c2.cid),
                activeStationCount db, true⟩
        else none) := by
      unfold getEligibleClassesForDrawing at hrows
      rw [if_neg h0] at hrows
      simpa using hrows.symm
    constructor
    · rintro ⟨r, hr, hrc⟩
      rw [hrows2] at hr
      rcases List.mem_filterMap.mp hr with ⟨c2, hc2, hfc2⟩
      by_cases hle : activeStationCount db ≤ stationsFoundCount (scansForClass db.scans c2.cid)
      · rw [if_pos hle] at hfc2
        have hc2cid : r.cid = c2.cid := by
          rw [← Option.some.inj hfc2]
        have hc2mem : c2 ∈ db.classes := (List.mem_filter.mp hc2).1
        have : c2 = c := classes_inj db hnd hc2mem hc (by rw [← hc2cid, hrc])
        rw [← this]
        exact hle
      · rw [if_neg hle] at hfc2
        simp at hfc2
    · intro hle
      refine ⟨⟨c.cid, c.name, c.school, c.grade, c.teacher.name, c.teacher.email,
        c.studentCount, stationsFoundCount (scansForClass db.scans c.cid),
        activeStationCount db, true⟩, ?_, rfl⟩
      rw [hrows2]
      exact List.mem_filterMap.mpr ⟨c, List.mem_filter.mpr ⟨hc, by simp [hact]⟩, by
        simp [if_pos hle]⟩

section
attribute [local semireducible] Rat.add Rat.mul Rat.sub Rat.inv

/-- Witness for C1: on the three-station store, the full-coverage class
satisfies the eligibility criterion and the two-station class does not. -/
theorem c1_witness :
    (classWA.cid ∈ (runResult (some 2) none drawW dbW id).eligibleClasses ↔
      activeStationCount dbW ≤ stationsFoundCount (scansForClass dbW.scans classWA.cid)) ∧
    (classWB.cid ∈ (runResult (some 2) none drawW dbW id).eligibleClasses ↔
      activeStationCount dbW ≤ stationsFoundCount (scansForClass dbW.scans classWB.cid)) :=
  have h := c1_eligibility_full_coverage dbW drawW 2 none id
    (runResult (some 2) none drawW dbW id) (by decide) rfl (fun l => List.Perm.refl l)
    (congrArg Prod.fst (runDrawing_success (some 2) none drawW dbW id (by decide) (by decide)
      (by decide) (by decide)))
  ⟨h.1 classWA (by decide) rfl, h.1 classWB (by decide) rfl⟩

/-- C2 (amended): in the ticket pool runDrawing builds, every eligible
active class holds a number of tickets equal to the claimed formula
amended with the full-coverage guard on the completion-time bonus, and
that number is at least 1. -/
theorem c2_ticket_weight_amended :
    ∀ (db : DB) (wf : WeightingFactors) (c : ClassDoc),
      (db.classes.map (·.cid)).Nodup → c ∈ db.classes → c.isActive = true →
      activeStationCount db ≤ stationsFoundCount (scansForClass db.scans c.cid) →
      ((entryPool wf (activeStationCount db) db.scans
          (db.classes.filter (·.isActive))).map (·.classId)).count c.cid =
        claimTicketWeightAmended wf (activeStationCount db)
          (scansForClass db.scans c.cid) ∧
      1 ≤ ((entryPool wf (activeStationCount db) db.scans
          (db.classes.filter (·.isActive))).map (·.classId)).count c.cid := by
  intro db wf c hnd hc hact hel
  have hndf : ((db.classes.filter (·.isActive)).map (·.cid)).Nodup :=
    ((List.filter_sublist db.classes).map _).nodup hnd
  have hcf : c ∈ db.classes.filter (·.isActive) := List.mem_filter.mpr ⟨hc, by simp [hact]⟩
  have h := entryPool_count wf (activeStationCount db) db.scans
    (db.classes.filter (·.isActive)) c hndf hcf hel
  constructor
  · rw [h, classWeight_eq_claimAmended]
  · rw [h]
    exact classWeight_pos _ _ _

/-- A store with two active stations in which class 1 has scanned three
distinct stations (one of them since deactivated), so its distinct count
exceeds the active total. -/
def dbC2 : DB := { dbW with stations := [⟨1, "S1", true⟩, ⟨2, "S2", true⟩] }

/-- Counterexample for C2 as stated: class 1 of dbC2 is eligible (3
distinct stations, 2 active), has a positive completion time and a
truthy completionTime factor, yet receives 4 tickets while the formula
of the claim - which omits the full-coverage guard on the bonus -
demands 9. -/
theorem c2_counterexample :
    activeStationCount dbC2 ≤ stationsFoundCount (scansForClass dbC2.scans classWA.cid) ∧
    (scansForClass dbC2.scans classWA.cid ≠ [] ∧
      0 < completionMinutes (scansForClass dbC2.scans classWA.cid) ∧
      wfW.completionTime ≠ 0) ∧
    ((entryPool wfW (activeStationCount dbC2) dbC2.scans
        (dbC2.classes.filter (·.isActive))).map (·.classId)).count classWA.cid = 4 ∧
    claimTicketWeight wfW (scansForClass dbC2.scans classWA.cid) = 9 := by
  refine ⟨by decide, ⟨by decide, by decide, by decide⟩, by decide, by decide⟩

/-- Witness for C2 on the three-station store. -/
theorem c2_witness :
    ((entryPool wfW (activeStationCount dbW) dbW.scans
        (dbW.classes.filter (·.isActive))).map (·.classId)).count classWA.cid =
      claimTicketWeightAmended wfW (activeStationCount dbW)
        (scansForClass dbW.scans classWA.cid) ∧
    1 ≤ ((entryPool wfW (activeStationCount dbW) dbW.scans
        (dbW.classes.filter (·.isActive))).map (·.classId)).count classWA.cid :=
  c2_ticket_weight_amended dbW wfW classWA (by decide) (by decide) rfl (by decide)

/-- C3: a successful run returns a winners list with no duplicate class
id whose length is the minimum of numberOfWinners and the number of
distinct eligible classes, and when the eligible classes number at most
numberOfWinners every one of them wins. -/
theorem c3_winner_list :
    ∀ (db : DB) (d : Drawing) (n : Int) (p? : Option String)
      (sh : List Entry → List Entry) (res : Drawing),
      (db.classes.map (·.cid)).Nodup →
      (∀ l, List.Perm (sh l) l) →
      (runDrawing (some n) p? (some d) db sh).1 = .ok res →
      (res.winners.map (·.winClass)).Nodup ∧
      res.winners.length = min n.toNat
        ((db.classes.filter (·.isActive)).filter
          (isEligibleClass (activeStationCount db) db.scans)).length ∧
      (((db.classes.filter (·.isActive)).filter
          (isEligibleClass (activeStationCount db) db.scans)).length ≤ n.toNat →
        ∀ c ∈ db.classes, c.isActive = true →
          activeStationCount db ≤ stationsFoundCount (scansForClass db.scans c.cid) →
          c.cid ∈ res.winners.map (·.winClass)) := by
  intro db d n p? sh res hnd hperm hok
  rcases runDrawing_ok_shape _ _ _ _ _ _ hok with ⟨hv, hst, h0, hpool, hres⟩
  have hndf : ((db.classes.filter (·.isActive)).map (·.cid)).Nodup :=
    ((List.filter_sublist db.classes).map _).nodup hnd
  have hnde : (eligibleIds (activeStationCount db) db.scans
      (db.classes.filter (·.isActive))).Nodup := eligibleIds_nodup _ _ _ hndf
  have hwmap : res.winners.map (·.winClass) = pickWinners ((some n : Option Int).getD 0).toNat
      (sh (entryPool d.weightingFactors (activeStationCount db) db.scans
        (db.classes.filter (·.isActive)))) [] := by
    rw [hres]
    exact map_winClass_mk _ _
  have hpermIds : List.Perm ((sh (entryPool d.weightingFactors (activeStationCount db)
      db.scans (db.classes.filter (·.isActive)))).map (·.classId))
      ((entryPool d.weightingFactors (activeStationCount db) db.scans
        (db.classes.filter (·.isActive))).map (·.classId)) :=
    (hperm _).map _
  have hfin : ((sh (entryPool d.weightingFactors (activeStationCount db) db.scans
      (db.classes.filter (·.isActive)))).map (·.classId)).toFinset =
      (eligibleIds (activeStationCount db) db.scans
        (db.classes.filter (·.isActive))).toFinset := by
    rw [List.toFinset_eq_of_perm _ _ hpermIds, entryPool_classIds]
  have hcard : ((sh (entryPool d.weightingFactors (activeStationCount db) db.scans
      (db.classes.filter (·.isActive)))).map (·.classId)).toFinset.card =
      ((db.classes.filter (·.isActive)).filter
        (isEligibleClass (activeStationCount db) db.scans)).length := by
    rw [hfin, List.toFinset_card_of_nodup hnde, eligibleIds_eq_filter_map, List.length_map]
  refine ⟨?_, ?_, ?_⟩
  · rw [hwmap]
    exact pickWinners_nodup _ _ List.nodup_nil
  · have hlen : res.winners.length = (res.winners.map (·.winClass)).length :=
      (List.length_map _ _).symm
    rw [hlen, hwmap, pickWinners_length _ _ List.nodup_nil (by simp)]
    simp only [List.toFinset_nil, Finset.empty_union]
    rw [hcard]
    rfl
  · intro hle c hc hact hcel
    have hcin : c.cid ∈ (sh (entryPool d.weightingFactors (activeStationCount db) db.scans
        (db.classes.filter (·.isActive)))).map (·.classId) := by
      apply List.mem_toFinset.mp
      rw [hfin]
      apply List.mem_toFinset.mpr
      exact (eligibleIds_mem_iff _ _ _ hndf c
        (List.mem_filter.mpr ⟨hc, by simp [hact]⟩)).mpr hcel
    rw [hwmap]
    apply pickWinners_complete _ _ List.nodup_nil (by simp)
    · simp only [List.toFinset_nil, Finset.empty_union]
      rw [hcard]
      exact hle
    · exact Or.inr hcin

/-- Witness for C3: with two requested winners and a single eligible
class, the winner list is that class alone, without duplicates. -/
theorem c3_witness :
    ((runResult (some 2) none drawW dbW id).winners.map (·.winClass)).Nodup ∧
    (runResult (some 2) none drawW dbW id).winners.length = min (Int.toNat 2)
      ((dbW.classes.filter (·.isActive)).filter
        (isEligibleClass (activeStationCount dbW) dbW.scans)).length ∧
    classWA.cid ∈ (runResult (some 2) none drawW dbW id).winners.map (·.winClass) :=
  have h := c3_winner_list dbW drawW 2 none id (runResult (some 2) none drawW dbW id)
    (by decide) (fun l => List.Perm.refl l)
    (congrArg Prod.fst (runDrawing_success (some 2) none drawW dbW id (by decide) (by decide)
      (by decide) (by decide)))
  ⟨h.1, h.2.1, h.2.2 (by decide) classWA (by decide) rfl (by decide)⟩

end

/-- C8: completion is a one-way latch - whatever recordScan call is
made, a class whose isCompleted flag is true keeps the flag and its
completedAt timestamp. -/
theorem c8_completion_latch :
    ∀ (db : DB) (i j : Option Nat) (now : Nat) (c : ClassDoc),
      (db.classes.map (·.cid)).Nodup → c ∈ db.classes → c.isCompleted = true →
      ∀ x ∈ (recordScan i j now db).2.classes, x.cid = c.cid →
        x.isCompleted = true ∧ x.completedAt = c.completedAt := by
  intro db i j now c hnd hc hcomp x hx hxc
  rcases recordScan_classes_shape i j now db with heq | ⟨cid, c0, cNew, hfind, hcid, hpres, heq⟩
  · rw [heq] at hx
    have hxe : x = c := classes_inj db hnd hx hc hxc
    rw [hxe]
    exact ⟨hcomp, rfl⟩
  · rw [heq] at hx
    rcases mem_updateClass_cases db cNew x hx with rfl | ⟨hxdb, hxne⟩
    · have hc0mem : c0 ∈ db.classes := List.mem_of_find?_eq_some hfind
      have hc0c : c0 = c := classes_inj db hnd hc0mem hc (by rw [← hcid]; exact hxc)
      rcases hpres (by rw [hc0c]; exact hcomp) with ⟨h1, h2⟩
      exact ⟨h1, by rw [h2, hc0c]⟩
    · have hxe : x = c := classes_inj db hnd hxdb hc hxc
      rw [hxe]
      exact ⟨hcomp, rfl⟩

/-- A class that is already completed, used by the C8 witness. -/
def classWC : ClassDoc := ⟨3, "ClassC", "School", "5", 19, teacherW, true, [1], true,
  some 60000, some 60000, 0⟩

/-- The witness store extended with the completed class and its scan. -/
def dbW8 : DB :=
  { dbW with
    classes := [classWA, classWB, classWC]
    scans := dbW.scans ++ [⟨3, 1, 60000⟩] }

/-- The completed class after it scans station 2 at time 99. -/
def classWC2 : ClassDoc := ⟨3, "ClassC", "School", "5", 19, teacherW, true, [1, 2], true,
  some 99, some 60000, 0⟩

/-- Witness for C8: after a further scan of a new station, the already
completed class keeps isCompleted and completedAt. -/
theorem c8_witness :
    classWC2.isCompleted = true ∧ classWC2.completedAt = classWC.completedAt :=
  c8_completion_latch dbW8 (some 3) (some 2) 99 classWC (by decide) (by decide) rfl
    classWC2 (by decide) rfl

/-- C10: a repeat scan of an existing (class, station) pair still
mutates the class document - lastScanAt becomes the current time - while
stationsScanned, isCompleted and completedAt are unchanged, no scan is
created and the response is the 200 existing-station soft success. -/
theorem c10_repeat_scan_updates_lastScanAt :
    ∀ (db : DB) (cid qr now : Nat) (st : Station) (c0 : ClassDoc) (s0 : Scan),
      (db.classes.map (·.cid)).Nodup →
      db.stations.find? (fun s => s.sid == qr) = some st →
      st.isActive = true →
      db.classes.find? (fun x => x.cid == cid) = some c0 →
      c0.isActive = true →
      db.scans.find? (fun s => s.classId == cid && s.stationId == st.sid) = some s0 →
      (recordScan (some cid) (some qr) now db).1 = .ok ⟨200, true, st.sid⟩ ∧
      (recordScan (some cid) (some qr) now db).2.scans = db.scans ∧
      ∀ x ∈ (recordScan (some cid) (some qr) now db).2.classes, x.cid = cid →
        x.lastScanAt = some now ∧ x.stationsScanned = c0.stationsScanned ∧
        x.isCompleted = c0.isCompleted ∧ x.completedAt = c0.completedAt := by
  intro db cid qr now st c0 s0 hnd hst hact hcl hcact hsc
  have hc0cid : c0.cid = cid := by simpa using List.find?_some hcl
  have hc0mem : c0 ∈ db.classes := List.mem_of_find?_eq_some hcl
  by_cases hnow : c0.lastScanAt = some now
  · have hrec : recordScan (some cid) (some qr) now db = (.ok ⟨200, true, st.sid⟩, db) := by
      simp [recordScan, hst, hact, hcl, hcact, hsc, hnow]
    rw [hrec]
    refine ⟨rfl, rfl, ?_⟩
    intro x hx hxcid
    have hxe : x = c0 := classes_inj db hnd hx hc0mem (by rw [hxcid, hc0cid])
    rw [hxe]
    exact ⟨hnow, rfl, rfl, rfl⟩
  · have hrec : recordScan (some cid) (some qr) now db =
        (.ok ⟨200, true, st.sid⟩, updateClass db (repeatScanClassUpdate now c0)) := by
      simp [recordScan, hst, hact, hcl, hcact, hsc, hnow]
    rw [hrec]
    refine ⟨rfl, rfl, ?_⟩
    intro x hx hxcid
    rcases mem_updateClass_cases db _ x hx with rfl | ⟨hxdb, hxne⟩
    · exact ⟨rfl, rfl, rfl, rfl⟩
    · exfalso
      apply hxne
      rw [hxcid, ← hc0cid]
      rfl

/-- Witness for C10: class 1 rescans station 1 at time 999. -/
theorem c10_witness :
    (recordScan (some 1) (some 1) 999 dbW).1 = .ok ⟨200, true, 1⟩ ∧
    (recordScan (some 1) (some 1) 999 dbW).2.scans = dbW.scans ∧
    ({ classWA with lastScanAt := some 999 } : ClassDoc).lastScanAt = some 999 ∧
    ({ classWA with lastScanAt := some 999 } : ClassDoc).stationsScanned =
      classWA.stationsScanned ∧
    ({ classWA with lastScanAt := some 999 } : ClassDoc).isCompleted = classWA.isCompleted ∧
    ({ classWA with lastScanAt := some 999 } : ClassDoc).completedAt = classWA.completedAt :=
  have h := c10_repeat_scan_updates_lastScanAt dbW 1 1 999 ⟨1, "S1", true⟩ classWA
    ⟨1, 1, 60000⟩ (by decide) (by decide) rfl (by decide) rfl (by decide)
  ⟨h.1, h.2.1,
    (h.2.2 { classWA with lastScanAt := some 999 } (by decide) rfl).1,
    (h.2.2 { classWA with lastScanAt := some 999 } (by decide) rfl).2.1,
    (h.2.2 { classWA with lastScanAt := some 999 } (by decide) rfl).2.2.1,
    (h.2.2 { classWA with lastScanAt := some 999 } (by decide) rfl).2.2.2⟩

/-- C7: a second scan of the same (class, station) pair never creates a
second Scan document - the call answers 200 with existing true, leaves
the scan collection and every stationsScanned list unchanged - the
(class, station) uniqueness invariant is preserved by every call, and
scanning the same pair twice in a row gives a creation then the
existing-station response with no second record. -/
theorem c7_rescan_idempotent :
    (∀ (db : DB) (cid qr now : Nat) (st : Station) (c0 : ClassDoc) (s0 : Scan),
      db.stations.find? (fun s => s.sid == qr) = some st →
      st.isActive = true →
      db.classes.find? (fun x => x.cid == cid) = some c0 →
      c0.isActive = true →
      db.scans.find? (fun s => s.classId == cid && s.stationId == st.sid) = some s0 →
      (recordScan (some cid) (some qr) now db).1 = .ok ⟨200, true, st.sid⟩ ∧
      (recordScan (some cid) (some qr) now db).2.scans = db.scans ∧
      ∀ x ∈ (recordScan (some cid) (some qr) now db).2.classes,
        ∃ y ∈ db.classes, x.cid = y.cid ∧ x.stationsScanned = y.stationsScanned) ∧
    (∀ (db : DB) (i j : Option Nat) (now : Nat),
      ScanPairsUnique db.scans → ScanPairsUnique (recordScan i j now db).2.scans) ∧
    (∀ (db : DB) (cid qr now1 now2 : Nat) (st : Station) (c0 : ClassDoc),
      db.stations.find? (fun s => s.sid == qr) = some st →
      st.isActive = true →
      db.classes.find? (fun x => x.cid == cid) = some c0 →
      c0.isActive = true →
      db.scans.find? (fun s => s.classId == cid && s.stationId == st.sid) = none →
      (recordScan (some cid) (some qr) now1 db).1 = .ok ⟨201, false, st.sid⟩ ∧
      (recordScan (some cid) (some qr) now2
        (recordScan (some cid) (some qr) now1 db).2).1 = .ok ⟨200, true, st.sid⟩ ∧
      (recordScan (some cid) (some qr) now2
        (recordScan (some cid) (some qr) now1 db).2).2.scans =
        (recordScan (some cid) (some qr) now1 db).2.scans) := by
  have hpart1 : ∀ (db : DB) (cid qr now : Nat) (st : Station) (c0 : ClassDoc) (s0 : Scan),
      db.stations.find? (fun s => s.sid == qr) = some st →
      st.isActive = true →
      db.classes.find? (fun x => x.cid == cid) = some c0 →
      c0.isActive = true →
      db.scans.find? (fun s => s.classId == cid && s.stationId == st.sid) = some s0 →
      (recordScan (some cid) (some qr) now db).1 = .ok ⟨200, true, st.sid⟩ ∧
      (recordScan (some cid) (some qr) now db).2.scans = db.scans ∧
      ∀ x ∈ (recordScan (some cid) (some qr) now db).2.classes,
        ∃ y ∈ db.classes, x.cid = y.cid ∧ x.stationsScanned = y.stationsScanned := by
    intro db cid qr now st c0 s0 hst hact hcl hcact hsc
    have hc0mem : c0 ∈ db.classes := List.mem_of_find?_eq_some hcl
    by_cases hnow : c0.lastScanAt = some now
    · have hrec : recordScan (some cid) (some qr) now db = (.ok ⟨200, true, st.sid⟩, db) := by
        simp [recordScan, hst, hact, hcl, hcact, hsc, hnow]
      rw [hrec]
      exact ⟨rfl, rfl, fun x hx => ⟨x, hx, rfl, rfl⟩⟩
    · have hrec : recordScan (some cid) (some qr) now db =
          (.ok ⟨200, true, st.sid⟩, updateClass db (repeatScanClassUpdate now c0)) := by
        simp [recordScan, hst, hact, hcl, hcact, hsc, hnow]
      rw [hrec]
      refine ⟨rfl, rfl, ?_⟩
      intro x hx
      rcases mem_updateClass_cases db _ x hx with rfl | ⟨hxdb, _⟩
      · exact ⟨c0, hc0mem, rfl, rfl⟩
      · exact ⟨x, hxdb, rfl, rfl⟩
  refine ⟨hpart1, ?_, ?_⟩
  · intro db i j now hU
    match i, j with
    | none, none => exact hU
    | none, some _ => exact hU
    | some _, none => exact hU
    | some cid, some qr =>
      rcases hst : db.stations.find? (fun s => s.sid == qr) with _ | st
      · simpa [recordScan, hst] using hU
      · by_cases hact : st.isActive
        · rcases hcl : db.classes.find? (fun x => x.cid == cid) with _ | c0
          · simpa [recordScan, hst, hact, hcl] using hU
          · by_cases hcact : c0.isActive
            · rcases hsc : db.scans.find?
                  (fun s => s.classId == cid && s.stationId == st.sid) with _ | s0
              · have hrec : (recordScan (some cid) (some qr) now db).2.scans =
                    db.scans ++ [⟨cid, st.sid, now⟩] := by
                  simp [recordScan, hst, hact, hcl, hcact, hsc, updateClass]
                rw [hrec]
                unfold ScanPairsUnique at hU ⊢
                rw [List.map_append]
                refine List.Nodup.append hU (by simp) ?_
                intro p hp hp2
                simp only [List.map_cons, List.map_nil, List.mem_singleton] at hp2
                rcases List.mem_map.mp hp with ⟨s, hs, hsp⟩
                have hnot := List.find?_eq_none.mp hsc s hs
                apply hnot
                rw [hp2] at hsp
                have h1 : s.classId = cid := congrArg Prod.fst hsp
                have h2 : s.stationId = st.sid := congrArg Prod.snd hsp
                simp [h1, h2]
              · by_cases hnow : c0.lastScanAt = some now
                · simpa [recordScan, hst, hact, hcl, hcact, hsc, hnow] using hU
                · have hrec : (recordScan (some cid) (some qr) now db).2.scans = db.scans := by
                    simp [recordScan, hst, hact, hcl, hcact, hsc, hnow, updateClass]
                  rw [ScanPairsUnique, hrec]
                  exact hU
            · simpa [recordScan, hst, hact, hcl, hcact] using hU
        · simpa [recordScan, hst, hact] using hU
  · intro db cid qr now1 now2 st c0 hst hact hcl hcact hsc
    have hfirst : recordScan (some cid) (some qr) now1 db =
        (.ok ⟨201, false, st.sid⟩,
          updateClass { db with scans := db.scans ++ [⟨cid, st.sid, now1⟩] }
            (newScanClassUpdate st.sid now1
              (activeStationCount { db with scans := db.scans ++ [⟨cid, st.sid, now1⟩] })
              c0)) := by
      simp [recordScan, hst, hact, hcl, hcact, hsc]
    have hstations2 : (recordScan (some cid) (some qr) now1 db).2.stations = db.stations := by
      rw [hfirst]
      rfl
    have hclasses2 : (recordScan (some cid) (some qr) now1 db).2.classes.find?
        (fun x => x.cid == cid) = some (newScanClassUpdate st.sid now1
          (activeStationCount { db with scans := db.scans ++ [⟨cid, st.sid, now1⟩] }) c0) := by
      rw [hfirst]
      exact find?_map_update cid _ db.classes c0 hcl (newScanClassUpdate_cid _ _ _ _)
    have hscans2 : (recordScan (some cid) (some qr) now1 db).2.scans =
        db.scans ++ [⟨cid, st.sid, now1⟩] := by
      rw [hfirst]
      rfl
    have hfind2 : (recordScan (some cid) (some qr) now1 db).2.scans.find?
        (fun s => s.classId == cid && s.stationId == st.sid) = some ⟨cid, st.sid, now1⟩ := by
      rw [hscans2, find?_append_of_none hsc]
      simp
    have hsecond := hpart1 (recordScan (some cid) (some qr) now1 db).2 cid qr now2 st
      (newScanClassUpdate st.sid now1
        (activeStationCount { db with scans := db.scans ++ [⟨cid, st.sid, now1⟩] }) c0)
      ⟨cid, st.sid, now1⟩ (by rw [hstations2]; exact hst) hact hclasses2
      (by rw [newScanClassUpdate_isActive]; exact hcact) hfind2
    exact ⟨by rw [hfirst], hsecond.1, hsecond.2.1⟩

/-- Witness for C7: the concrete store, an existing pair, the invariant
and the literal double scan of a fresh pair. -/
theorem c7_witness :
    ((recordScan (some 1) (some 1) 500 dbW).1 = .ok ⟨200, true, 1⟩ ∧
      (recordScan (some 1) (some 1) 500 dbW).2.scans = dbW.scans) ∧
    ScanPairsUnique (recordScan (some 2) (some 3) 500 dbW).2.scans ∧
    ((recordScan (some 2) (some 3) 600 dbW).1 = .ok ⟨201, false, 3⟩ ∧
      (recordScan (some 2) (some 3) 700 (recordScan (some 2) (some 3) 600 dbW).2).1 =
        .ok ⟨200, true, 3⟩ ∧
      (recordScan (some 2) (some 3) 700 (recordScan (some 2) (some 3) 600 dbW).2).2.scans =
        (recordScan (some 2) (some 3) 600 dbW).2.scans) :=
  have h1 := c7_rescan_idempotent.1 dbW 1 1 500 ⟨1, "S1", true⟩ classWA ⟨1, 1, 60000⟩
    (by decide) rfl (by decide) rfl (by decide)
  have h2 := c7_rescan_idempotent.2.1 dbW (some 2) (some 3) 500 (by decide)
  have h3 := c7_rescan_idempotent.2.2 dbW 2 3 600 700 ⟨3, "S3", true⟩ classWB
    (by decide) rfl (by decide) rfl (by decide)
  ⟨⟨h1.1, h1.2.1⟩, h2, h3⟩

/-- The class of the C4 scenario: registered at time 0 (9:00), scans at
3600000 (10:00) and 3900000 (10:05), marked completed at the second
scan. -/
def classC4 : ClassDoc := ⟨1, "C1", "School", "5", 20, teacherW, true, [1, 2], true,
  some 3900000, some 3900000, 0⟩

/-- The C4 scenario store: two active stations, one class, two scans. -/
def dbC4 : DB := ⟨[⟨1, "S1", true⟩, ⟨2, "S2", true⟩], [classC4],
  [⟨1, 1, 3600000⟩, ⟨1, 2, 3900000⟩]⟩

section
attribute [local semireducible] Rat.add Rat.mul Rat.sub Rat.inv

/-- C4: evaluation of the code at the scenario of the claim. The
progress query returns completedCount 2, totalStations 2, isCompleted
true as claimed, but its completionTime is 65 minutes - computed as
completedAt minus registeredAt - while the scan-history based value
(max per-station-latest scan time minus earliest scan time) demanded by
the claim and by the unit test of the repository is 5 minutes. -/
theorem c4_code_eval :
    getClassProgress teacherW.tid false 1 dbC4 =
      .ok ⟨2, 2, 100, true, some 3900000, some 3900000, some 65⟩ ∧
    completionMinutes (scansForClass dbC4.scans 1) = 5 ∧ (65 : ℚ) ≠ 5 := by
  refine ⟨by decide, by decide, by decide⟩

end

end RRLC
